import Mathlib

/-!
# Verification of the intended-state reconciliation job

Shallow embedding of `src/jobs/intended_state.py`: a declarative
reconciliation engine that takes a parsed intended-state document
(mapping record-type names to lists of record specs), resolves legacy
`#ref:` string references against a record store, performs upserts and
applies `#set` / `#add` relationship directives, under the error policy
of the source (`try`/`except` blocks translated into explicit
exception values).

The storage/query layer (Django ORM) is an external collaborator; its
operations (`objects.get`, `update_or_create`, M2M `set`/`add`,
`validated_save`) are modelled from the spec's storage-boundary
contract, with explicit state passing over a record store.
-/

set_option autoImplicit false

namespace IntendedStateJob

/-- The exception classes that appear in the source's `except` clauses
(plus `other` for anything outside them). `lookupError` covers Python's
`LookupError` hierarchy, including `IndexError` and `KeyError`. -/
inductive Exc where
  | attributeError
  | lookupError
  | objectDoesNotExist
  | validationError
  | multipleObjectsReturned
  | valueError
  | fieldError
  | integrityError
  | other
  deriving DecidableEq, Repr

/-- JSON-like values flowing through the engine. `record n` is a resolved
record handle (a model instance substituted for a reference marker). -/
inductive JVal where
  | null
  | bool (b : Bool)
  | num (n : Int)
  | str (s : String)
  | arr (elems : List JVal)
  | obj (fields : List (String × JVal))
  | record (id : Nat)

mutual

/-- Decidable equality of JSON-like values (hand-rolled because the
derive handler does not support this nested inductive). -/
def JVal.decEq : (a b : JVal) → Decidable (a = b)
  | .null, .null => isTrue rfl
  | .null, .bool _ => isFalse (fun h => nomatch h)
  | .null, .num _ => isFalse (fun h => nomatch h)
  | .null, .str _ => isFalse (fun h => nomatch h)
  | .null, .arr _ => isFalse (fun h => nomatch h)
  | .null, .obj _ => isFalse (fun h => nomatch h)
  | .null, .record _ => isFalse (fun h => nomatch h)
  | .bool _, .null => isFalse (fun h => nomatch h)
  | .bool a, .bool b =>
    if h : a = b then isTrue (h ▸ rfl)
    else isFalse (fun hh => h (JVal.bool.inj hh))
  | .bool _, .num _ => isFalse (fun h => nomatch h)
  | .bool _, .str _ => isFalse (fun h => nomatch h)
  | .bool _, .arr _ => isFalse (fun h => nomatch h)
  | .bool _, .obj _ => isFalse (fun h => nomatch h)
  | .bool _, .record _ => isFalse (fun h => nomatch h)
  | .num _, .null => isFalse (fun h => nomatch h)
  | .num _, .bool _ => isFalse (fun h => nomatch h)
  | .num a, .num b =>
    if h : a = b then isTrue (h ▸ rfl)
    else isFalse (fun hh => h (JVal.num.inj hh))
  | .num _, .str _ => isFalse (fun h => nomatch h)
  | .num _, .arr _ => isFalse (fun h => nomatch h)
  | .num _, .obj _ => isFalse (fun h => nomatch h)
  | .num _, .record _ => isFalse (fun h => nomatch h)
  | .str _, .null => isFalse (fun h => nomatch h)
  | .str _, .bool _ => isFalse (fun h => nomatch h)
  | .str _, .num _ => isFalse (fun h => nomatch h)
  | .str a, .str b =>
    if h : a = b then isTrue (h ▸ rfl)
    else isFalse (fun hh => h (JVal.str.inj hh))
  | .str _, .arr _ => isFalse (fun h => nomatch h)
  | .str _, .obj _ => isFalse (fun h => nomatch h)
  | .str _, .record _ => isFalse (fun h => nomatch h)
  | .arr _, .null => isFalse (fun h => nomatch h)
  | .arr _, .bool _ => isFalse (fun h => nomatch h)
  | .arr _, .num _ => isFalse (fun h => nomatch h)
  | .arr _, .str _ => isFalse (fun h => nomatch h)
  | .arr a, .arr b =>
    match JVal.decEqList a b with
    | isTrue h => isTrue (h ▸ rfl)
    | isFalse h => isFalse (fun hh => h (JVal.arr.inj hh))
  | .arr _, .obj _ => isFalse (fun h => nomatch h)
  | .arr _, .record _ => isFalse (fun h => nomatch h)
  | .obj _, .null => isFalse (fun h => nomatch h)
  | .obj _, .bool _ => isFalse (fun h => nomatch h)
  | .obj _, .num _ => isFalse (fun h => nomatch h)
  | .obj _, .str _ => isFalse (fun h => nomatch h)
  | .obj _, .arr _ => isFalse (fun h => nomatch h)
  | .obj a, .obj b =>
    match JVal.decEqFields a b with
    | isTrue h => isTrue (h ▸ rfl)
    | isFalse h => isFalse (fun hh => h (JVal.obj.inj hh))
  | .obj _, .record _ => isFalse (fun h => nomatch h)
  | .record _, .null => isFalse (fun h => nomatch h)
  | .record _, .bool _ => isFalse (fun h => nomatch h)
  | .record _, .num _ => isFalse (fun h => nomatch h)
  | .record _, .str _ => isFalse (fun h => nomatch h)
  | .record _, .arr _ => isFalse (fun h => nomatch h)
  | .record _, .obj _ => isFalse (fun h => nomatch h)
  | .record a, .record b =>
    if h : a = b then isTrue (h ▸ rfl)
    else isFalse (fun hh => h (JVal.record.inj hh))

/-- Decidable equality of JSON value lists. -/
def JVal.decEqList : (a b : List JVal) → Decidable (a = b)
  | [], [] => isTrue rfl
  | [], _ :: _ => isFalse (fun h => nomatch h)
  | _ :: _, [] => isFalse (fun h => nomatch h)
  | a :: as, b :: bs =>
    match JVal.decEq a b with
    | isFalse h => isFalse (fun hh => h (List.cons.inj hh).1)
    | isTrue h1 =>
      match JVal.decEqList as bs with
      | isFalse h => isFalse (fun hh => h (List.cons.inj hh).2)
      | isTrue h2 => isTrue (by rw [h1, h2])

/-- Decidable equality of JSON object field lists. -/
def JVal.decEqFields : (a b : List (String × JVal)) → Decidable (a = b)
  | [], [] => isTrue rfl
  | [], _ :: _ => isFalse (fun h => nomatch h)
  | _ :: _, [] => isFalse (fun h => nomatch h)
  | (k1, v1) :: as, (k2, v2) :: bs =>
    if hk : k1 = k2 then
      match JVal.decEq v1 v2 with
      | isFalse h => isFalse (fun hh => h (congrArg Prod.snd (List.cons.inj hh).1))
      | isTrue hv =>
        match JVal.decEqFields as bs with
        | isFalse h => isFalse (fun hh => h (List.cons.inj hh).2)
        | isTrue ht => isTrue (by rw [hk, hv, ht])
    else isFalse (fun hh => hk (congrArg Prod.fst (List.cons.inj hh).1))

end

instance : DecidableEq JVal := JVal.decEq

/-- A record spec / Python dict: an association list with unique keys
(Python dicts cannot hold duplicate keys). -/
abbrev Spec := List (String × JVal)

/-- A stored record: identity, model name, scalar fields, and
relationship collections (many-to-many member lists). -/
structure Record where
  id : Nat
  model : String
  fields : Spec
  rels : List (String × List JVal)
  deriving DecidableEq

/-- The record store plus the model registry (`apps.get_model`): each
registered model name maps to the list of its relationship field names.
`saves` counts `validated_save` calls. -/
structure Storage where
  models : List (String × List String)
  records : List Record
  nextId : Nat
  saves : Nat
  deriving DecidableEq

/-- Python `d[k]` / `k in d` on a dict: first (unique) binding. -/
def pyDictGet (d : Spec) (k : String) : Option JVal :=
  (d.find? (fun p => p.1 = k)).map Prod.snd

/-- Python `d.pop(k)`'s effect on the dict: remove the binding for `k`. -/
def removeKey (d : Spec) (k : String) : Spec :=
  d.filter (fun p => p.1 ≠ k)

/-- Python `d[k] = v` when `k` is already present: overwrite in place. -/
def setKey (d : Spec) (k : String) (v : JVal) : Spec :=
  d.map (fun p => if p.1 = k then (k, v) else p)

/-- Python dict insertion (`d[k] = v`): overwrite in place if present,
else append. -/
def assocUpdate (d : Spec) (k : String) (v : JVal) : Spec :=
  if (d.find? (fun p => p.1 = k)).isSome then setKey d k v else d ++ [(k, v)]

/-- Python truthiness of a JSON-like value (`if set_dict:`). A model
instance (resolved record) is always truthy. -/
def pyTruthy : JVal → Bool
  | .null => false
  | .bool b => b
  | .num n => n ≠ 0
  | .str s => s ≠ ""
  | .arr es => !es.isEmpty
  | .obj fs => !fs.isEmpty
  | .record _ => true

/-- Python `if not isinstance(x, (list, set, tuple)): x = [x]` — wrap a bare
scalar (or dict / record) into a one-element list. -/
def pyAsList : JVal → List JVal
  | .arr es => es
  | v => [v]

/-- Python slice `l[::2]`: elements at even indices. -/
def everyOther : List String → List String
  | [] => []
  | [x] => [x]
  | x :: _ :: rest => x :: everyOther rest

/-- The comprehension building the lookup dict — pair fields
with values positionally; raises `IndexError` (a `LookupError`) as soon
as `values` runs out before `fields` does. -/
def buildLookup : List String → List String → Except Exc (List (String × String))
  | [], _ => .ok []
  | _ :: _, [] => .error .lookupError
  | f :: fs, v :: vs =>
    match buildLookup fs vs with
    | .error e => .error e
    | .ok rest => .ok ((f, v) :: rest)

/-- Registry lookup backing `apps.get_model(name)`. -/
def modelRels (models : List (String × List String)) (name : String) : Option (List String) :=
  (models.find? (fun p => p.1 = name)).map Prod.snd

/-- Look up a stored record's scalar field. -/
def Record.getField (r : Record) (k : String) : Option JVal :=
  pyDictGet r.fields k

/-- Lookup `object_class.objects.get(**obj_lookup)`: filter the store by model
name and exact field/value match; exactly one match is expected.
Modelled from the spec: zero matches is a not-found failure, more than
one is a multiple-match failure, one match yields the record handle. -/
def objects_get (st : Storage) (model : String) (lookup : List (String × String)) :
    Except Exc JVal :=
  match st.records.filter
      (fun r => r.model == model &&
        lookup.all (fun p => r.getField p.1 == some (JVal.str p.2))) with
  | [] => .error .objectDoesNotExist
  | [r] => .ok (.record r.id)
  | _ :: _ :: _ => .error .multipleObjectsReturned

/-- Is the first list a prefix of the second? (Executable counterpart of
`str.startswith`, written out so that proofs can evaluate it.) -/
def charsStartWith : List Char → List Char → Bool
  | [], _ => true
  | _ :: _, [] => false
  | a :: as, b :: bs => a == b && charsStartWith as bs

/-- Python `ref.startswith("#ref")`. -/
def pyStartsWithRef (s : String) : Bool :=
  charsStartWith "#ref".data s.data

/-- Accumulator for `ref.split(":")`: split at every colon, keeping empty
pieces, exactly like Python's `str.split` with an explicit separator. -/
def splitColonAux : List Char → List Char → List String
  | [], acc => [String.mk acc.reverse]
  | c :: cs, acc =>
    if c = ':' then String.mk acc.reverse :: splitColonAux cs []
    else splitColonAux cs (c :: acc)

/-- Python `ref.split(":")`. -/
def pySplitColon (s : String) : List String :=
  splitColonAux s.data []

/-- The legacy `#ref:` string after `split(":")`: pop the `#ref` token,
pop the `app.model` name (resolved via the registry), split the
remaining tokens into fields (even indices) and values (odd indices),
build the lookup dict, then query storage. Popping from a too-short
list raises `IndexError` (a `LookupError`). The storage query is a
parameter so that theorems can state that parsing errors occur before
any storage lookup. -/
def resolve_tokens (models : List (String × List String))
    (lookup : String → List (String × String) → Except Exc JVal) :
    List String → Except Exc JVal
  | [] => .error .lookupError
  | [_] => .error .lookupError
  | _ :: app_name :: rest =>
    match modelRels models app_name with
    | none => .error .lookupError
    | some _ =>
      match buildLookup (everyOther rest) (everyOther (rest.drop 1)) with
      | .error e => .error e
      | .ok pairs => lookup app_name pairs

mutual

/-- Function `replace_ref` from the source, parameterised by the storage query:
dicts are recursed into value by value, sequences element by element,
non-string scalars returned unchanged, and strings starting with `#ref`
parsed and resolved via `resolve_tokens`. -/
def replace_ref (models : List (String × List String))
    (lookup : String → List (String × String) → Except Exc JVal) :
    JVal → Except Exc JVal
  | .obj fs =>
    match replace_ref_fields models lookup fs with
    | .error e => .error e
    | .ok fs' => .ok (.obj fs')
  | .arr es =>
    match replace_ref_list models lookup es with
    | .error e => .error e
    | .ok es' => .ok (.arr es')
  | .str s =>
    if pyStartsWithRef s then resolve_tokens models lookup (pySplitColon s)
    else .ok (.str s)
  | .null => .ok .null
  | .bool b => .ok (.bool b)
  | .num n => .ok (.num n)
  | .record i => .ok (.record i)

/-- Loop `for key, value in ref.items(): ref[key] = replace_ref(value)`. -/
def replace_ref_fields (models : List (String × List String))
    (lookup : String → List (String × String) → Except Exc JVal) :
    List (String × JVal) → Except Exc (List (String × JVal))
  | [] => .ok []
  | (k, v) :: rest =>
    match replace_ref models lookup v with
    | .error e => .error e
    | .ok v' =>
      match replace_ref_fields models lookup rest with
      | .error e => .error e
      | .ok rest' => .ok ((k, v') :: rest')

/-- Comprehension `[replace_ref(r) for r in ref]`. -/
def replace_ref_list (models : List (String × List String))
    (lookup : String → List (String × String) → Except Exc JVal) :
    List JVal → Except Exc (List JVal)
  | [] => .ok []
  | v :: rest =>
    match replace_ref models lookup v with
    | .error e => .error e
    | .ok v' =>
      match replace_ref_list models lookup rest with
      | .error e => .error e
      | .ok rest' => .ok (v' :: rest')

end

/-- The resolver `replace_ref` wired to the live store. -/
def replace_refS (st : Storage) (v : JVal) : Except Exc JVal :=
  replace_ref st.models (objects_get st) v

/-- The log entries the job emits: the two warning forms, the per-record
outcome info line, and the `logger.error` line from `run`. -/
inductive LogEntry where
  | warnRef (model : String) (e : Exc)
  | warnUpsert (e : Exc)
  | info (objId : Nat) (created : Bool)
  | err (e : Exc)
  deriving DecidableEq, Repr

/-- The first `except` clause (field resolution): `AttributeError`,
`LookupError`, `ObjectDoesNotExist`, `ValidationError`,
`MultipleObjectsReturned`. -/
def caughtRef : Exc → Bool
  | .attributeError => true
  | .lookupError => true
  | .objectDoesNotExist => true
  | .validationError => true
  | .multipleObjectsReturned => true
  | _ => false

/-- The second `except` clause (upsert and directive application):
`ValueError`, `FieldError`, `ObjectDoesNotExist`, `ValidationError`,
`MultipleObjectsReturned`, `IntegrityError`. -/
def caughtUpsert : Exc → Bool
  | .valueError => true
  | .fieldError => true
  | .objectDoesNotExist => true
  | .validationError => true
  | .multipleObjectsReturned => true
  | .integrityError => true
  | _ => false

/-- Directive extraction (source lines 86–97): pop the directive key
from the top level of the spec if present, else pop it from inside the
`defaults` sub-mapping, else absent; returns the raw payload and the
spec after the pop. -/
def extract_pop (key : String) (spec : Spec) : Option JVal × Spec :=
  match pyDictGet spec key with
  | some v => (some v, removeKey spec key)
  | none =>
    match pyDictGet spec "defaults" with
    | some (.obj dfl) =>
      match pyDictGet dfl key with
      | some v => (some v, setKey spec "defaults" (.obj (removeKey dfl key)))
      | none => (none, spec)
    | _ => (none, spec)

/-- Loop `for key, value in object_data.items(): object_data[key] =
replace_ref(value)` — resolve every remaining field value in order,
stopping at the first error. -/
def resolveFields (st : Storage) : Spec → Except Exc Spec
  | [] => .ok []
  | (k, v) :: rest =>
    match replace_refS st v with
    | .error e => .error e
    | .ok v' =>
      match resolveFields st rest with
      | .error e => .error e
      | .ok rest' => .ok ((k, v') :: rest')

/-- Does a stored record match a predicate of resolved field values? -/
def matchesPred (r : Record) (model : String) (pred : Spec) : Bool :=
  r.model == model && pred.all (fun p => r.getField p.1 == some p.2)

/-- Overwrite one record in the store. -/
def replaceRecord (st : Storage) (r' : Record) : Storage :=
  { st with records := st.records.map (fun r => if r.id = r'.id then r' else r) }

/-- Upsert `object_class.objects.update_or_create(**object_data)`. Modelled
from the spec: fields outside `defaults` form the match predicate;
`defaults` fields apply on creation as defaults for unspecified fields,
and are written through when updating an existing match; zero matches
creates (with the model's relationship fields starting empty), one
match updates, several matches raise a multiple-match error. A
non-mapping `defaults` value is a fatal (uncaught) error. -/
def update_or_create (st : Storage) (model : String) (spec : Spec) :
    Storage × Except Exc (Nat × Bool) :=
  let pred := removeKey spec "defaults"
  match pyDictGet spec "defaults" with
  | some (.arr _) => (st, .error .other)
  | some (.str _) => (st, .error .other)
  | some (.num _) => (st, .error .other)
  | some (.bool _) => (st, .error .other)
  | some (.record _) => (st, .error .other)
  | some .null => (st, .error .other)
  | dopt =>
    let dfl := match dopt with
      | some (.obj d) => d
      | _ => []
    match st.records.filter (fun r => matchesPred r model pred) with
    | [] =>
      let fields := pred ++ dfl.filter (fun p => (pyDictGet pred p.1).isNone)
      let rels := ((modelRels st.models model).getD []).map (fun f => (f, ([] : List JVal)))
      let r : Record := ⟨st.nextId, model, fields, rels⟩
      ({ st with records := st.records ++ [r], nextId := st.nextId + 1 },
        .ok (st.nextId, true))
    | [r] =>
      let r' := { r with fields := dfl.foldl (fun fs p => assocUpdate fs p.1 p.2) r.fields }
      (replaceRecord st r', .ok (r.id, false))
    | _ :: _ :: _ => (st, .error .multipleObjectsReturned)

/-- Look up a relationship collection on a stored record. -/
def getRel (st : Storage) (objId : Nat) (fname : String) : Option (List JVal) :=
  match st.records.find? (fun r => r.id = objId) with
  | none => none
  | some r => (r.rels.find? (fun p => p.1 = fname)).map Prod.snd

/-- Replace the member list of the named relationship field in a
relationship table (first matching entry; keys are unique). -/
def setRelField : List (String × List JVal) → String → List JVal → List (String × List JVal)
  | [], _, _ => []
  | (k, m) :: rest, f, ms =>
    if k = f then (k, ms) :: rest else (k, m) :: setRelField rest f ms

/-- Replace a relationship collection on the stored record with the
given id (`field.set(set_list, clear=True)` writing through). -/
def setRelMembers (st : Storage) (objId : Nat) (fname : String) (ms : List JVal) : Storage :=
  { st with
    records := st.records.map (fun r =>
      if r.id = objId then { r with rels := setRelField r.rels fname ms } else r) }

/-- Persist `obj.validated_save()`. Modelled from the spec: persist/validate the
record; validation always passes over this store, so it only counts the
persist call. -/
def validated_save (st : Storage) (_objId : Nat) : Storage :=
  { st with saves := st.saves + 1 }

/-- The loop of `obj_set`: for each field in the directive payload, wrap
a bare scalar into a one-element list, `getattr` the field (raising
`AttributeError` when the record has no such relationship field), and
replace its member collection with exactly that list
(`field.set(set_list, clear=True)`). -/
def obj_set_loop (st : Storage) (objId : Nat) : List (String × JVal) → Storage × Option Exc
  | [] => (st, none)
  | (fname, v) :: rest =>
    let set_list := pyAsList v
    match getRel st objId fname with
    | none => (st, some .attributeError)
    | some _ => obj_set_loop (setRelMembers st objId fname set_list) objId rest

/-- Function `obj_set(obj, set_dict)` from the source: iterate the payload's
items replacing each named relationship collection, then
`validated_save` the parent record once. Calling it with a non-dict
payload raises `AttributeError` (`set_dict.items()`). -/
def obj_set (st : Storage) (objId : Nat) : JVal → Storage × Option Exc
  | .obj pairs =>
    match obj_set_loop st objId pairs with
    | (st', some e) => (st', some e)
    | (st', none) => (validated_save st' objId, none)
  | _ => (st, some .attributeError)

/-- Association `field.add(*add_list)`. Modelled from the spec: append the resolved
members without removing existing ones; re-adding an existing member
does not duplicate it and must not raise. -/
def addMembers (ms : List JVal) (xs : List JVal) : List JVal :=
  xs.foldl (fun acc x => if acc.contains x then acc else acc ++ [x]) ms

/-- The loop of `obj_add`: like `obj_set_loop` but appending members. -/
def obj_add_loop (st : Storage) (objId : Nat) : List (String × JVal) → Storage × Option Exc
  | [] => (st, none)
  | (fname, v) :: rest =>
    let add_list := pyAsList v
    match getRel st objId fname with
    | none => (st, some .attributeError)
    | some ms => obj_add_loop (setRelMembers st objId fname (addMembers ms add_list)) objId rest

/-- Function `obj_add(obj, add_dict)` from the source. -/
def obj_add (st : Storage) (objId : Nat) : JVal → Storage × Option Exc
  | .obj pairs =>
    match obj_add_loop st objId pairs with
    | (st', some e) => (st', some e)
    | (st', none) => (validated_save st' objId, none)
  | _ => (st, some .attributeError)

/-- Python truthiness of the extracted directive (`if set_dict:` — `None`
and an empty resolved payload are both falsy). -/
def pyTruthyOpt : Option JVal → Bool
  | none => false
  | some v => pyTruthy v

/-- Source lines 114–117: apply the `#set` directive when truthy, then
the `#add` directive when truthy. -/
def apply_directives (st : Storage) (objId : Nat) (setD addD : Option JVal) :
    Storage × Option Exc :=
  match (if pyTruthyOpt setD then obj_set st objId (setD.getD .null) else (st, none)) with
  | (st1, some e) => (st1, some e)
  | (st1, none) =>
    if pyTruthyOpt addD then obj_add st1 objId (addD.getD .null) else (st1, none)

/-- Source lines 113–117: upsert then apply directives; the first error
aborts the phase. -/
def upsert_and_apply (st : Storage) (model : String) (resolved : Spec)
    (setD addD : Option JVal) : Storage × Except Exc (Nat × Bool) :=
  match update_or_create st model resolved with
  | (st1, .error e) => (st1, .error e)
  | (st1, .ok (objId, created)) =>
    match apply_directives st1 objId setD addD with
    | (st2, some e) => (st2, .error e)
    | (st2, none) => (st2, .ok (objId, created))

/-- Source lines 86–97: extract the `#set` directive and run its payload
through `replace_ref` immediately, then likewise for `#add` on the spec
left by the first pop. These `replace_ref` calls sit OUTSIDE both `try`
blocks, so any resolution error here escapes the per-spec handling. -/
def resolve_directives (st : Storage) (spec : Spec) :
    Except Exc (Option JVal × Option JVal × Spec) :=
  let (setRaw, spec1) := extract_pop "#set" spec
  match (match setRaw with
         | none => .ok none
         | some v => (replace_refS st v).map some : Except Exc (Option JVal)) with
  | .error e => .error e
  | .ok setD =>
    let (addRaw, spec2) := extract_pop "#add" spec1
    match (match addRaw with
           | none => .ok none
           | some v => (replace_refS st v).map some : Except Exc (Option JVal)) with
    | .error e => .error e
    | .ok addD => .ok (setD, addD, spec2)

/-- Processing of one record spec (the body of the inner `for` loop):
extract and immediately resolve the `#set` and `#add` directives (any
resolution error here is outside the `try` blocks, hence fatal), then
resolve the remaining fields under the first `except` clause, then
upsert and apply directives under the second `except` clause. Returns
the storage, the log entries emitted, and the fatal exception if one
escaped. -/
def process_spec (st : Storage) (model : String) (spec : Spec) :
    Storage × List LogEntry × Option Exc :=
  match resolve_directives st spec with
  | .error e => (st, [], some e)
  | .ok (setD, addD, spec2) =>
    match resolveFields st spec2 with
    | .error e =>
      if caughtRef e then (st, [.warnRef model e], none) else (st, [], some e)
    | .ok resolved =>
      match upsert_and_apply st model resolved setD addD with
      | (st1, .error e) =>
        if caughtUpsert e then (st1, [.warnUpsert e], none) else (st1, [], some e)
      | (st1, .ok (objId, created)) => (st1, [.info objId created], none)

/-- The inner loop over one record type's spec list; stops at the first
fatal exception. -/
def run_specs (st : Storage) (model : String) : List Spec → Storage × List LogEntry × Option Exc
  | [] => (st, [], none)
  | spec :: rest =>
    match process_spec st model spec with
    | (st1, log1, some e) => (st1, log1, some e)
    | (st1, log1, none) =>
      let (st2, log2, e?) := run_specs st1 model rest
      (st2, log1 ++ log2, e?)

/-- An intended-state document, already parsed from JSON: record-type
name to ordered list of record specs, in insertion order. -/
abbrev Document := List (String × List Spec)

/-- Method `_run_intended_state` over the parsed document: for each record
type, `apps.get_model` (fatal `LookupError` when the name is not
registered), then process its specs in order. -/
def runIntendedState (st : Storage) : Document → Storage × List LogEntry × Option Exc
  | [] => (st, [], none)
  | (model, specs) :: rest =>
    match modelRels st.models model with
    | none => (st, [], some .lookupError)
    | some _ =>
      match run_specs st model specs with
      | (st1, log1, some e) => (st1, log1, some e)
      | (st1, log1, none) =>
        let (st2, log2, e?) := runIntendedState st1 rest
        (st2, log1 ++ log2, e?)

/-- Method `IntendedState.run`: the whole document is processed inside
`transaction.atomic()`, with no non-atomic option; an exception escaping
`_run_intended_state` rolls back every storage effect of the run,
is logged via `logger.error`, and is re-raised to the caller (the
returned `Option Exc`). -/
def run (st : Storage) (doc : Document) : Storage × List LogEntry × Option Exc :=
  match runIntendedState st doc with
  | (st', log, none) => (st', log, none)
  | (_, log, some e) => (st, log ++ [.err e], some e)

mutual

/-- A value contains no reference markers: no reachable string starts
with the `#ref` sentinel. -/
def jvalNoRef : JVal → Bool
  | .str s => !pyStartsWithRef s
  | .arr es => jlistNoRef es
  | .obj fs => jfieldsNoRef fs
  | .null => true
  | .bool _ => true
  | .num _ => true
  | .record _ => true

/-- No element of the list contains a reference marker. -/
def jlistNoRef : List JVal → Bool
  | [] => true
  | v :: rest => jvalNoRef v && jlistNoRef rest

/-- No value of the field list contains a reference marker. -/
def jfieldsNoRef : List (String × JVal) → Bool
  | [] => true
  | (_, v) :: rest => jvalNoRef v && jfieldsNoRef rest

end

mutual

/-- The resolver is the identity on marker-free values. -/
theorem replace_ref_noRef (models : List (String × List String))
    (lookup : String → List (String × String) → Except Exc JVal) :
    ∀ v : JVal, jvalNoRef v = true → replace_ref models lookup v = .ok v
  | .str s, h => by
    simp only [jvalNoRef, Bool.not_eq_true'] at h
    simp [replace_ref, h]
  | .arr es, h => by
    rw [replace_ref, replace_ref_list_noRef models lookup es (by simpa [jvalNoRef] using h)]
  | .obj fs, h => by
    rw [replace_ref, replace_ref_fields_noRef models lookup fs (by simpa [jvalNoRef] using h)]
  | .null, _ => rfl
  | .bool _, _ => rfl
  | .num _, _ => rfl
  | .record _, _ => rfl

/-- List version of `replace_ref_noRef`. -/
theorem replace_ref_list_noRef (models : List (String × List String))
    (lookup : String → List (String × String) → Except Exc JVal) :
    ∀ es : List JVal, jlistNoRef es = true → replace_ref_list models lookup es = .ok es
  | [], _ => rfl
  | v :: rest, h => by
    rw [jlistNoRef, Bool.and_eq_true] at h
    rw [replace_ref_list, replace_ref_noRef models lookup v h.1,
      replace_ref_list_noRef models lookup rest h.2]

/-- Field-list version of `replace_ref_noRef`. -/
theorem replace_ref_fields_noRef (models : List (String × List String))
    (lookup : String → List (String × String) → Except Exc JVal) :
    ∀ fs : List (String × JVal), jfieldsNoRef fs = true →
      replace_ref_fields models lookup fs = .ok fs
  | [], _ => rfl
  | (k, v) :: rest, h => by
    rw [jfieldsNoRef, Bool.and_eq_true] at h
    rw [replace_ref_fields, replace_ref_noRef models lookup v h.1,
      replace_ref_fields_noRef models lookup rest h.2]

end

/-- Field resolution is the identity on a marker-free spec. -/
theorem resolveFields_noRef (st : Storage) :
    ∀ spec : Spec, jfieldsNoRef spec = true → resolveFields st spec = .ok spec
  | [], _ => rfl
  | (k, v) :: rest, h => by
    rw [jfieldsNoRef, Bool.and_eq_true] at h
    rw [resolveFields, replace_refS, replace_ref_noRef st.models (objects_get st) v h.1,
      resolveFields_noRef st rest h.2]

/-! ## Association-list helper lemmas -/

theorem pyDictGet_cons (k0 : String) (v0 : JVal) (rest : Spec) (k : String) :
    pyDictGet ((k0, v0) :: rest) k = if k0 = k then some v0 else pyDictGet rest k := by
  simp only [pyDictGet, List.find?_cons]
  by_cases h : k0 = k <;> simp [h]

theorem pyDictGet_removeKey_ne (k k' : String) (hne : k' ≠ k) :
    ∀ d : Spec, pyDictGet (removeKey d k) k' = pyDictGet d k'
  | [] => rfl
  | (k0, v0) :: rest => by
    by_cases h0 : k0 = k
    · have hstep : removeKey ((k0, v0) :: rest) k = removeKey rest k := by
        simp [removeKey, h0]
      have hk0 : k0 ≠ k' := fun h => hne (h ▸ h0)
      rw [hstep, pyDictGet_removeKey_ne k k' hne rest, pyDictGet_cons]
      simp [hk0]
    · have hstep : removeKey ((k0, v0) :: rest) k = (k0, v0) :: removeKey rest k := by
        simp [removeKey, h0]
      rw [hstep, pyDictGet_cons, pyDictGet_cons, pyDictGet_removeKey_ne k k' hne rest]

theorem pyDictGet_of_mem_nodup (k : String) (v : JVal) :
    ∀ d : Spec, (d.map Prod.fst).Nodup → (k, v) ∈ d → pyDictGet d k = some v
  | [], _, hm => by cases hm
  | (k0, v0) :: rest, hnd, hm => by
    rw [List.map_cons] at hnd
    have hnd' := List.nodup_cons.mp hnd
    rw [pyDictGet_cons]
    rcases List.mem_cons.mp hm with heq | htail
    · cases heq
      simp
    · have hk0 : k0 ≠ k := by
        intro h
        exact hnd'.1 (List.mem_map.mpr ⟨(k, v), htail, h.symm⟩)
      simp only [hk0, if_false]
      exact pyDictGet_of_mem_nodup k v rest hnd'.2 htail

theorem pyDictGet_append_left (k : String) (v : JVal) (d d2 : Spec)
    (h : pyDictGet d k = some v) : pyDictGet (d ++ d2) k = some v := by
  induction d with
  | nil => simp [pyDictGet] at h
  | cons p rest ih =>
    obtain ⟨k0, v0⟩ := p
    rw [pyDictGet_cons] at h
    rw [List.cons_append, pyDictGet_cons]
    by_cases h0 : k0 = k
    · simpa [h0] using h
    · simp only [h0, if_false] at h ⊢
      exact ih h

/-! ## Record-store helper lemmas -/

theorem find?_map_preserveId (upd : Record → Record) (hid : ∀ r, (upd r).id = r.id)
    (objId i : Nat) :
    ∀ recs : List Record,
      (recs.map (fun r => if r.id = objId then upd r else r)).find? (fun r => r.id = i) =
        (recs.find? (fun r => r.id = i)).map (fun r => if r.id = objId then upd r else r)
  | [] => rfl
  | r :: rest => by
    have hsame : (if r.id = objId then upd r else r).id = r.id := by
      split
      · exact hid r
      · rfl
    rw [List.map_cons, List.find?_cons, List.find?_cons, hsame]
    cases hd : decide (r.id = i) with
    | true => rfl
    | false => exact find?_map_preserveId upd hid objId i rest

theorem rels_find?_setField_self (f : String) (ms : List JVal) :
    ∀ rels : List (String × List JVal),
      ((setRelField rels f ms).find? (fun p => p.1 = f)) =
        (rels.find? (fun p => p.1 = f)).map (fun p => (p.1, ms))
  | [] => rfl
  | (k, m) :: rest => by
    rw [setRelField]
    by_cases h : k = f
    · rw [if_pos h, List.find?_cons, List.find?_cons]
      have hd : decide ((k, ms).1 = f) = true := decide_eq_true h
      rw [hd]
      rfl
    · rw [if_neg h, List.find?_cons, List.find?_cons]
      have hd : decide ((k, ms).1 = f) = false := decide_eq_false h
      rw [hd]
      exact rels_find?_setField_self f ms rest

theorem rels_find?_setField_ne (f f' : String) (ms : List JVal) (hne : f' ≠ f) :
    ∀ rels : List (String × List JVal),
      ((setRelField rels f ms).find? (fun p => p.1 = f')) =
        rels.find? (fun p => p.1 = f')
  | [] => rfl
  | (k, m) :: rest => by
    rw [setRelField]
    by_cases h : k = f
    · rw [if_pos h, List.find?_cons, List.find?_cons]
      have hk : ¬(k = f') := fun hh => hne (hh ▸ h)
      have hd : decide ((k, ms).1 = f') = false := decide_eq_false hk
      rw [hd]
    · rw [if_neg h, List.find?_cons, List.find?_cons]
      cases hd : decide ((k, m).1 = f') with
      | true => rfl
      | false => exact rels_find?_setField_ne f f' ms hne rest

theorem getRel_setRelMembers_self (st : Storage) (objId : Nat) (f : String) (ms : List JVal)
    (h : (getRel st objId f).isSome) :
    getRel (setRelMembers st objId f ms) objId f = some ms := by
  unfold getRel at h
  unfold getRel setRelMembers
  rw [find?_map_preserveId (fun r => { r with rels := setRelField r.rels f ms })
    (fun r => rfl) objId objId]
  cases hr : st.records.find? (fun r => r.id = objId) with
  | none => rw [hr] at h; simp at h
  | some r =>
    rw [hr] at h
    have hrid : r.id = objId := by
      have := List.find?_some hr
      simpa using this
    simp only [Option.map_some']
    rw [if_pos hrid]
    have h2 : (Option.map Prod.snd (r.rels.find? (fun p => p.1 = f))).isSome = true := h
    cases hrel : r.rels.find? (fun p => p.1 = f) with
    | none => rw [hrel] at h2; simp at h2
    | some p =>
      show Option.map Prod.snd ((setRelField r.rels f ms).find? (fun p => p.1 = f)) = some ms
      rw [rels_find?_setField_self f ms r.rels, hrel]
      rfl

theorem getRel_setRelMembers_ne_field (st : Storage) (objId i : Nat) (f f' : String)
    (ms : List JVal) (hne : f' ≠ f) :
    getRel (setRelMembers st objId f ms) i f' = getRel st i f' := by
  unfold getRel setRelMembers
  rw [find?_map_preserveId (fun r => { r with rels := setRelField r.rels f ms })
    (fun r => rfl) objId i]
  cases hr : st.records.find? (fun r => r.id = i) with
  | none => rfl
  | some r =>
    simp only [Option.map_some']
    by_cases hid : r.id = objId
    · rw [if_pos hid]
      show Option.map Prod.snd ((setRelField r.rels f ms).find? (fun p => p.1 = f')) =
        Option.map Prod.snd (r.rels.find? (fun p => p.1 = f'))
      rw [rels_find?_setField_ne f f' ms hne r.rels]
    · rw [if_neg hid]

theorem getRel_setRelMembers_ne_id (st : Storage) (objId i : Nat) (f f' : String)
    (ms : List JVal) (hne : i ≠ objId) :
    getRel (setRelMembers st objId f ms) i f' = getRel st i f' := by
  unfold getRel setRelMembers
  rw [find?_map_preserveId (fun r => { r with rels := setRelField r.rels f ms })
    (fun r => rfl) objId i]
  cases hr : st.records.find? (fun r => r.id = i) with
  | none => rfl
  | some r =>
    have hrid : r.id = i := by
      have := List.find?_some hr
      simpa using this
    have hno : ¬(r.id = objId) := by rw [hrid]; exact hne
    simp only [Option.map_some']
    rw [if_neg hno]

theorem setRelMembers_saves (st : Storage) (objId : Nat) (f : String) (ms : List JVal) :
    (setRelMembers st objId f ms).saves = st.saves := rfl

theorem setRelMembers_records_length (st : Storage) (objId : Nat) (f : String)
    (ms : List JVal) :
    (setRelMembers st objId f ms).records.length = st.records.length := by
  simp [setRelMembers]

theorem getRel_validated_save (st : Storage) (j i : Nat) (f : String) :
    getRel (validated_save st j) i f = getRel st i f := rfl

/-- Behaviour of the `obj_set` loop when every named relationship field
exists on the record: it succeeds, replaces each named field's member
list with exactly the (scalar-wrapped) payload, and leaves every other
relationship collection, the save counter and the record count
untouched. -/
theorem obj_set_loop_ok (objId : Nat) :
    ∀ (pairs : List (String × JVal)) (st : Storage),
      (pairs.map Prod.fst).Nodup →
      (∀ p ∈ pairs, (getRel st objId p.1).isSome) →
      ∃ st', obj_set_loop st objId pairs = (st', none) ∧
        st'.saves = st.saves ∧
        st'.records.length = st.records.length ∧
        (∀ p ∈ pairs, getRel st' objId p.1 = some (pyAsList p.2)) ∧
        (∀ i f, (∀ p ∈ pairs, p.1 ≠ f) → getRel st' i f = getRel st i f)
  | [], st, _, _ =>
    ⟨st, rfl, rfl, rfl, by simp, fun i f _ => rfl⟩
  | (f0, v0) :: rest, st, hnd, hex => by
    have hex0 : (getRel st objId f0).isSome = true := hex (f0, v0) (List.mem_cons_self _ _)
    rw [List.map_cons] at hnd
    have hnd' := List.nodup_cons.mp hnd
    have hrestne : ∀ p ∈ rest, p.1 ≠ f0 := by
      intro p hp h
      exact hnd'.1 (List.mem_map.mpr ⟨p, hp, h⟩)
    obtain ⟨ms0, hms0⟩ := Option.isSome_iff_exists.mp hex0
    have hex' : ∀ p ∈ rest, (getRel (setRelMembers st objId f0 (pyAsList v0)) objId p.1).isSome := by
      intro p hp
      rw [getRel_setRelMembers_ne_field st objId objId f0 p.1 (pyAsList v0) (hrestne p hp)]
      exact hex p (List.mem_cons_of_mem _ hp)
    obtain ⟨st', hloop, hsaves, hlen, hset, hframe⟩ :=
      obj_set_loop_ok objId rest (setRelMembers st objId f0 (pyAsList v0)) hnd'.2 hex'
    refine ⟨st', ?_, ?_, ?_, ?_, ?_⟩
    · rw [obj_set_loop, hms0]
      exact hloop
    · rw [hsaves, setRelMembers_saves]
    · rw [hlen, setRelMembers_records_length]
    · intro p hp
      rcases List.mem_cons.mp hp with heq | htail
      · cases heq
        rw [hframe objId f0 hrestne,
          getRel_setRelMembers_self st objId f0 (pyAsList v0) hex0]
      · exact hset p htail
    · intro i f hf
      have hf0 : f ≠ f0 := fun h => hf (f0, v0) (List.mem_cons_self _ _) h.symm
      rw [hframe i f (fun p hp => hf p (List.mem_cons_of_mem _ hp)),
        getRel_setRelMembers_ne_field st objId i f0 f (pyAsList v0) hf0]

/-! ## Concrete fixtures for witnesses and counterexamples -/

/-- A small model registry: a department model with a `tags`
relationship and a person model with a `groups` relationship. -/
def demoModels : List (String × List String) :=
  [("app.dept", ["tags"]), ("app.person", ["groups"])]

/-- An empty store over the demo registry. -/
def st0 : Storage := ⟨demoModels, [], 0, 0⟩

/-- A stored department named HQ. -/
def deptRec : Record := ⟨7, "app.dept", [("name", .str "HQ")], [("tags", [])]⟩

/-- A store holding only the HQ department. -/
def stD : Storage := ⟨demoModels, [deptRec], 8, 0⟩

/-- A stored person whose `groups` relationship holds two members. -/
def personRec : Record :=
  ⟨1, "app.person", [("name", .str "a")], [("groups", [.record 10, .record 11])]⟩

/-- A store holding only that person. -/
def stP : Storage := ⟨demoModels, [personRec], 2, 0⟩

/-! ## Claims -/

/-- C5: for every upserted record with an extracted `set` directive,
`obj_set` replaces each named relationship field's member collection to
equal exactly the resolved list (a bare scalar payload is wrapped into
a one-element list by `pyAsList` first), leaves every relationship
field not named in the directive unchanged, and then persists/validates
the parent record (exactly one `validated_save`). -/
theorem C5_set_replaces_membership_exactly (st : Storage) (objId : Nat)
    (pairs : List (String × JVal))
    (hnd : (pairs.map Prod.fst).Nodup)
    (hex : ∀ p ∈ pairs, (getRel st objId p.1).isSome) :
    ∃ st', obj_set st objId (.obj pairs) = (st', none) ∧
      (∀ p ∈ pairs, getRel st' objId p.1 = some (pyAsList p.2)) ∧
      (∀ i f, (∀ p ∈ pairs, p.1 ≠ f) → getRel st' i f = getRel st i f) ∧
      st'.saves = st.saves + 1 ∧
      st'.records.length = st.records.length := by
  obtain ⟨st1, hloop, hsaves, hlen, hset, hframe⟩ := obj_set_loop_ok objId pairs st hnd hex
  refine ⟨validated_save st1 objId, ?_, ?_, ?_, ?_, ?_⟩
  · rw [obj_set, hloop]
  · intro p hp
    rw [getRel_validated_save]
    exact hset p hp
  · intro i f hf
    rw [getRel_validated_save]
    exact hframe i f hf
  · show st1.saves + 1 = st.saves + 1
    rw [hsaves]
  · show st1.records.length = st.records.length
    exact hlen

/-- Witness for C5: the person's `groups` collection is {10, 11} before
and exactly {12} after `set: {groups: [12]}`, with one persist call. -/
theorem C5_witness :
    getRel stP 1 "groups" = some [JVal.record 10, JVal.record 11] ∧
    ∃ st', obj_set stP 1 (JVal.obj [("groups", JVal.arr [JVal.record 12])]) = (st', none) ∧
      getRel st' 1 "groups" = some [JVal.record 12] ∧ st'.saves = stP.saves + 1 := by
  refine ⟨rfl, ?_⟩
  obtain ⟨st', h1, h2, h3, h4, h5⟩ :=
    C5_set_replaces_membership_exactly stP 1 [("groups", JVal.arr [JVal.record 12])]
      (by simp)
      (by
        intro p hp
        rw [List.mem_singleton] at hp
        subst hp
        rfl)
  refine ⟨st', h1, ?_, h4⟩
  have := h2 ("groups", JVal.arr [JVal.record 12]) (List.mem_singleton.mpr rfl)
  simpa [pyAsList] using this

/-- C10: when the extracted `#set` and `#add` payloads are absent or
resolve to an empty mapping, the directive application step is silently
skipped (`if set_dict:` is falsy for `None` and for `{}`): the result
of the phase is exactly the storage the upsert produced — no
relationship field mutated and no persist/validate call made. -/
theorem C10_empty_directive_payload_skipped (st : Storage) (model : String)
    (resolved : Spec) (setD addD : Option JVal) (objId : Nat) (created : Bool)
    (hset : setD = none ∨ setD = some (.obj []))
    (hadd : addD = none ∨ addD = some (.obj []))
    (hup : (update_or_create st model resolved).2 = .ok (objId, created)) :
    upsert_and_apply st model resolved setD addD =
      ((update_or_create st model resolved).1, .ok (objId, created)) := by
  rcases hst : update_or_create st model resolved with ⟨st1, res⟩
  rw [hst] at hup
  simp only at hup
  subst hup
  rw [upsert_and_apply, hst]
  have happly : apply_directives st1 objId setD addD = (st1, none) := by
    rcases hset with h | h <;> rcases hadd with h' | h' <;> subst h <;> subst h' <;>
      simp [apply_directives, pyTruthyOpt, pyTruthy]
  simp only [happly]

/-- Witness for C10: an empty `#set` payload on a fresh upsert leaves
the store exactly as the upsert produced it (in particular zero
`validated_save` calls). -/
theorem C10_witness :
    (update_or_create st0 "app.person" [("name", JVal.str "a")]).2 = .ok (0, true) ∧
    upsert_and_apply st0 "app.person" [("name", JVal.str "a")]
        (some (JVal.obj [])) none =
      ((update_or_create st0 "app.person" [("name", JVal.str "a")]).1, .ok (0, true)) ∧
    (update_or_create st0 "app.person" [("name", JVal.str "a")]).1.saves = 0 := by
  refine ⟨rfl, ?_, rfl⟩
  exact C10_empty_directive_payload_skipped st0 "app.person" [("name", JVal.str "a")]
    (some (JVal.obj [])) none 0 true (Or.inr rfl) (Or.inl rfl) rfl

theorem everyOther_length : ∀ l : List String, (everyOther l).length = (l.length + 1) / 2
  | [] => by simp [everyOther]
  | [_] => by simp [everyOther]
  | _ :: _ :: rest => by
    rw [everyOther]
    simp only [List.length_cons, everyOther_length rest]
    omega

theorem buildLookup_error_of_short :
    ∀ fs vs : List String, vs.length < fs.length →
      buildLookup fs vs = .error .lookupError
  | [], _, h => absurd h (by simp)
  | _ :: _, [], _ => rfl
  | f :: fs, v :: vs, h => by
    rw [buildLookup, buildLookup_error_of_short fs vs (by simpa using Nat.lt_of_succ_lt_succ h)]

/-- C9: a legacy string reference whose trailing colon-separated tokens
after the record-type number an odd count hits the `IndexError` (a
`LookupError`) while pairing fields with values, before the storage
lookup is ever consulted: the result is the same error for EVERY
storage-lookup oracle. The second conjunct ties `resolve_tokens` to the
string surface of `replace_ref`. -/
theorem C9_odd_trailing_tokens_malformed (models : List (String × List String))
    (lookup : String → List (String × String) → Except Exc JVal)
    (hd app : String) (rest : List String)
    (hreg : (modelRels models app).isSome = true)
    (hodd : rest.length % 2 = 1) :
    resolve_tokens models lookup (hd :: app :: rest) = .error .lookupError ∧
    (∀ s : String, pyStartsWithRef s = true →
      replace_ref models lookup (.str s) = resolve_tokens models lookup (pySplitColon s)) := by
  constructor
  · obtain ⟨rels, hr⟩ := Option.isSome_iff_exists.mp hreg
    rw [resolve_tokens, hr]
    have hlen : (everyOther (rest.drop 1)).length < (everyOther rest).length := by
      rw [everyOther_length, everyOther_length, List.length_drop]
      omega
    rw [buildLookup_error_of_short _ _ hlen]
  · intro s hs
    rw [replace_ref, if_pos hs]

/-- Witness for C9: `#ref:app.dept:name` (one trailing token) yields the
malformed-reference error under an arbitrary oracle, and end-to-end
against the live store. -/
theorem C9_witness :
    (modelRels demoModels "app.dept").isSome = true ∧
    (["name"] : List String).length % 2 = 1 ∧
    resolve_tokens demoModels (fun _ _ => Except.ok JVal.null)
      ["#ref", "app.dept", "name"] = .error .lookupError ∧
    replace_refS stD (.str "#ref:app.dept:name") = .error .lookupError := by
  refine ⟨rfl, rfl, ?_, ?_⟩
  · exact (C9_odd_trailing_tokens_malformed demoModels (fun _ _ => Except.ok JVal.null)
      "#ref" "app.dept" ["name"] rfl rfl).1
  · have h := (C9_odd_trailing_tokens_malformed demoModels (objects_get stD)
      "#ref" "app.dept" ["name"] rfl rfl)
    rw [replace_refS]
    rw [show stD.models = demoModels from rfl]
    rw [h.2 "#ref:app.dept:name" rfl]
    rw [show pySplitColon "#ref:app.dept:name" = ["#ref", "app.dept", "name"] from rfl]
    exact h.1

/-- C6: the `#set` (likewise `#add`) directive is extracted by popping
it from the top level of the spec if present there, else from inside
`defaults`, else it is absent; when both a top-level and a
`defaults`-nested directive are present the top-level one is checked
first and wins, with no merging — the `defaults` binding is left
untouched by the top-level pop. -/
theorem C6_directive_extraction_precedence (key : String) (spec : Spec)
    (hkey : key ≠ "defaults") :
    (∀ vt, pyDictGet spec key = some vt →
      extract_pop key spec = (some vt, removeKey spec key) ∧
      pyDictGet (removeKey spec key) "defaults" = pyDictGet spec "defaults") ∧
    (∀ dfl vd, pyDictGet spec key = none →
      pyDictGet spec "defaults" = some (.obj dfl) → pyDictGet dfl key = some vd →
      extract_pop key spec = (some vd, setKey spec "defaults" (.obj (removeKey dfl key)))) ∧
    (∀ dfl, pyDictGet spec key = none →
      pyDictGet spec "defaults" = some (.obj dfl) → pyDictGet dfl key = none →
      extract_pop key spec = (none, spec)) ∧
    (pyDictGet spec key = none → pyDictGet spec "defaults" = none →
      extract_pop key spec = (none, spec)) := by
  refine ⟨?_, ?_, ?_, ?_⟩
  · intro vt h
    exact ⟨by rw [extract_pop, h],
      pyDictGet_removeKey_ne key "defaults" (Ne.symm hkey) spec⟩
  · intro dfl vd h hd hv
    simp [extract_pop, h, hd, hv]
  · intro dfl h hd hv
    simp [extract_pop, h, hd, hv]
  · intro h hd
    simp [extract_pop, h, hd]

/-- A spec carrying both a top-level `#set` and a `defaults`-nested
`#set`. -/
def specBoth : Spec :=
  [("#set", .num 1), ("defaults", .obj [("#set", .num 2), ("x", .null)])]

/-- Witness for C6: on `specBoth` the top-level `#set` wins and the
`defaults`-nested one is not merged in (the `defaults` binding of the
remaining spec still holds it). -/
theorem C6_witness :
    ("#set" : String) ≠ "defaults" ∧
    pyDictGet specBoth "#set" = some (.num 1) ∧
    extract_pop "#set" specBoth = (some (.num 1), removeKey specBoth "#set") ∧
    pyDictGet (removeKey specBoth "#set") "defaults" =
      some (.obj [("#set", .num 2), ("x", .null)]) := by
  refine ⟨by decide, rfl, ?_⟩
  have h := (C6_directive_extraction_precedence "#set" specBoth (by decide)).1
    (.num 1) rfl
  exact ⟨h.1, by rw [h.2]; rfl⟩

/-- Keys are preserved when the resolver recurses through a mapping. -/
theorem replace_ref_fields_keys (models : List (String × List String))
    (lookup : String → List (String × String) → Except Exc JVal) :
    ∀ fs gs : List (String × JVal),
      replace_ref_fields models lookup fs = .ok gs →
      gs.map Prod.fst = fs.map Prod.fst
  | [], gs, h => by cases h; rfl
  | (k, v) :: rest, gs, h => by
    rw [replace_ref_fields] at h
    cases hv : replace_ref models lookup v with
    | error e => rw [hv] at h; cases h
    | ok v' =>
      rw [hv] at h
      cases hr : replace_ref_fields models lookup rest with
      | error e => rw [hr] at h; cases h
      | ok rest' =>
        rw [hr] at h
        cases h
        simp [replace_ref_fields_keys models lookup rest rest' hr]

/-- C2 counterexample: the structured reference-marker form is NOT
resolved. With the HQ department in the store, the structured marker
`{"app.dept": {"name": "HQ"}}` comes back as the same mapping (its
contents recursed into as ordinary fields) and not as the matched
record identity, even though the equivalent legacy string
`#ref:app.dept:name:HQ` does resolve to that record. -/
theorem C2_counterexample :
    replace_refS stD (.obj [("app.dept", .obj [("name", .str "HQ")])]) =
      .ok (.obj [("app.dept", .obj [("name", .str "HQ")])]) ∧
    replace_refS stD (.str "#ref:app.dept:name:HQ") = .ok (.record 7) :=
  ⟨rfl, rfl⟩

/-- C2 amended: the resolver never treats a mapping as a reference
marker: a mapping input always resolves to a mapping with the same keys
(every value recursed into as an ordinary field); only the legacy
`#ref:` string surface resolves to a record identity. -/
theorem C2_amended_mapping_never_resolved_directly
    (models : List (String × List String))
    (lookup : String → List (String × String) → Except Exc JVal)
    (fs : List (String × JVal)) (r : JVal)
    (h : replace_ref models lookup (.obj fs) = .ok r) :
    ∃ gs, r = .obj gs ∧ gs.map Prod.fst = fs.map Prod.fst := by
  rw [replace_ref] at h
  cases hf : replace_ref_fields models lookup fs with
  | error e => rw [hf] at h; cases h
  | ok gs =>
    rw [hf] at h
    cases h
    exact ⟨gs, rfl, replace_ref_fields_keys models lookup fs gs hf⟩

/-- Witness for C2's amended claim at the structured marker from the
counterexample. -/
theorem C2_amended_witness :
    ∃ gs, JVal.obj [("app.dept", JVal.obj [("name", JVal.str "HQ")])] = .obj gs ∧
      gs.map Prod.fst = [("app.dept", JVal.obj [("name", JVal.str "HQ")])].map Prod.fst :=
  C2_amended_mapping_never_resolved_directly stD.models (objects_get stD)
    [("app.dept", JVal.obj [("name", JVal.str "HQ")])]
    (JVal.obj [("app.dept", JVal.obj [("name", JVal.str "HQ")])]) rfl

/-- C3: when field resolution of a spec fails with a not-found,
multiple-match, malformed-reference (`LookupError`), or
attribute/lookup error, the job logs a warning identifying the
record-type and error, abandons the spec (the storage is untouched — no
upsert is attempted and the extracted directives are discarded), and
continues with the next spec from the same storage. -/
theorem C3_resolution_failure_warns_and_continues (st : Storage) (model : String)
    (spec : Spec) (rest : List Spec) (e : Exc) (setD addD : Option JVal) (spec2 : Spec)
    (hdir : resolve_directives st spec = .ok (setD, addD, spec2))
    (hres : resolveFields st spec2 = .error e)
    (he : e = .objectDoesNotExist ∨ e = .multipleObjectsReturned ∨
      e = .lookupError ∨ e = .attributeError) :
    process_spec st model spec = (st, [.warnRef model e], none) ∧
    run_specs st model (spec :: rest) =
      ((run_specs st model rest).1,
        .warnRef model e :: (run_specs st model rest).2.1,
        (run_specs st model rest).2.2) := by
  have hc : caughtRef e = true := by rcases he with h | h | h | h <;> subst h <;> rfl
  have hp : process_spec st model spec = (st, [.warnRef model e], none) := by
    simp [process_spec, hdir, hres, hc]
  refine ⟨hp, ?_⟩
  rcases hr : run_specs st model rest with ⟨st2, log2, e2⟩
  simp [run_specs, hp, hr]

/-- Witness for C3: a spec whose `dept` field references a department
that does not exist is skipped with a warning, and the next spec still
creates its record. -/
theorem C3_witness :
    resolve_directives st0 [("name", JVal.str "a"), ("dept", JVal.str "#ref:app.dept:name:Nope")] =
      .ok (none, none, [("name", JVal.str "a"), ("dept", JVal.str "#ref:app.dept:name:Nope")]) ∧
    resolveFields st0 [("name", JVal.str "a"), ("dept", JVal.str "#ref:app.dept:name:Nope")] =
      .error .objectDoesNotExist ∧
    run_specs st0 "app.person"
        [[("name", JVal.str "a"), ("dept", JVal.str "#ref:app.dept:name:Nope")],
         [("name", JVal.str "b")]] =
      ((run_specs st0 "app.person" [[("name", JVal.str "b")]]).1,
        .warnRef "app.person" .objectDoesNotExist ::
          (run_specs st0 "app.person" [[("name", JVal.str "b")]]).2.1,
        (run_specs st0 "app.person" [[("name", JVal.str "b")]]).2.2) := by
  refine ⟨rfl, rfl, ?_⟩
  exact (C3_resolution_failure_warns_and_continues st0 "app.person"
    [("name", JVal.str "a"), ("dept", JVal.str "#ref:app.dept:name:Nope")]
    [[("name", JVal.str "b")]] .objectDoesNotExist none none
    [("name", JVal.str "a"), ("dept", JVal.str "#ref:app.dept:name:Nope")]
    rfl rfl (Or.inl rfl)).2

/-- A spec whose `#set` payload references a department that does not
exist in the (empty) store. -/
def specBadSetRef : Spec :=
  [("name", JVal.str "a"),
   ("#set", JVal.obj [("groups", JVal.str "#ref:app.dept:name:Nope")])]

/-- C7 counterexample: a `#set` payload whose reference fails to
resolve is NOT recovered at per-record granularity. On the two-spec
document the run aborts with the unhandled not-found error: no warning
is logged, the failing spec is not skipped, the following spec is never
processed (no record is persisted), and the error surfaces — whereas
the second spec alone would have created its record. -/
theorem C7_counterexample :
    run st0 [("app.person", [specBadSetRef, [("name", JVal.str "b")]])] =
      (st0, [.err .objectDoesNotExist], some .objectDoesNotExist) ∧
    st0.records.length = 0 ∧
    (run st0 [("app.person", [[("name", JVal.str "b")]])]).1.records.length = 1 ∧
    (run st0 [("app.person", [[("name", JVal.str "b")]])]).2.2 = none :=
  ⟨rfl, rfl, rfl, rfl⟩

/-- C7 amended: a resolution failure inside an extracted `#set`/`#add`
directive payload happens outside both `try` blocks, so it is fatal:
the whole run aborts (every storage effect rolled back), no warning is
logged for it, later specs are not processed, and the error surfaces to
the caller. -/
theorem C7_amended_directive_resolution_failure_is_fatal (st : Storage) (model : String)
    (spec : Spec) (rest : List Spec) (e : Exc)
    (hreg : (modelRels st.models model).isSome = true)
    (hdir : resolve_directives st spec = .error e) :
    run st [(model, spec :: rest)] = (st, [.err e], some e) := by
  obtain ⟨rels, hr⟩ := Option.isSome_iff_exists.mp hreg
  have hp : process_spec st model spec = (st, [], some e) := by
    simp [process_spec, hdir]
  have hrs : run_specs st model (spec :: rest) = (st, [], some e) := by
    simp [run_specs, hp]
  have hri : runIntendedState st [(model, spec :: rest)] = (st, [], some e) := by
    simp [runIntendedState, hr, hrs]
  simp [run, hri]

/-- Witness for C7's amended claim at the concrete bad-`#set` document. -/
theorem C7_amended_witness :
    (modelRels st0.models "app.person").isSome = true ∧
    resolve_directives st0 specBadSetRef = .error .objectDoesNotExist ∧
    run st0 [("app.person", [specBadSetRef, [("name", JVal.str "b")]])] =
      (st0, [.err .objectDoesNotExist], some .objectDoesNotExist) := by
  refine ⟨rfl, rfl, ?_⟩
  exact C7_amended_directive_resolution_failure_is_fatal st0 "app.person" specBadSetRef
    [[("name", JVal.str "b")]] .objectDoesNotExist rfl rfl

/-- A spec whose `#set` directive names a relationship field that does
not exist on the person model. -/
def specBadSetField : Spec :=
  [("name", JVal.str "a"),
   ("#set", JVal.obj [("nonfield", JVal.arr [JVal.num 1])])]

/-- C8 counterexample: a directive-application failure from a
nonexistent relationship field (`AttributeError` in `getattr`) is not
in the second `except` clause, so it is NOT handled like an upsert
error: instead of a warning and continuation, the whole run aborts and
rolls back (the upsert that had already succeeded is undone), and the
error surfaces — even though the same spec without the directive
succeeds. -/
theorem C8_counterexample :
    (update_or_create st0 "app.person" [("name", JVal.str "a")]).2 = .ok (0, true) ∧
    run st0 [("app.person", [specBadSetField])] =
      (st0, [.err .attributeError], some .attributeError) ∧
    (run st0 [("app.person", [[("name", JVal.str "a")]])]).2.2 = none ∧
    (run st0 [("app.person", [[("name", JVal.str "a")]])]).1.records.length = 1 :=
  ⟨rfl, rfl, rfl, rfl⟩

/-- C8 amended: an error from the upsert-and-directive phase is handled
at the per-spec boundary (warning logged, run continues from the phase's
storage) exactly when its type is in the second `except` clause
(`ValueError`, `FieldError`, `ObjectDoesNotExist`, `ValidationError`,
`MultipleObjectsReturned`, `IntegrityError`); any other error there —
such as the `AttributeError` raised when the named relationship field
does not exist — escapes the per-spec boundary and aborts the whole
run. -/
theorem C8_amended_directive_application_error_policy (st : Storage) (model : String)
    (spec : Spec) (rest : List Spec) (setD addD : Option JVal) (spec2 resolved : Spec)
    (e : Exc)
    (hdir : resolve_directives st spec = .ok (setD, addD, spec2))
    (hres : resolveFields st spec2 = .ok resolved)
    (herr : (upsert_and_apply st model resolved setD addD).2 = .error e) :
    (caughtUpsert e = true →
      run_specs st model (spec :: rest) =
        ((run_specs (upsert_and_apply st model resolved setD addD).1 model rest).1,
          .warnUpsert e ::
            (run_specs (upsert_and_apply st model resolved setD addD).1 model rest).2.1,
          (run_specs (upsert_and_apply st model resolved setD addD).1 model rest).2.2)) ∧
    (caughtUpsert e = false →
      run_specs st model (spec :: rest) =
        ((upsert_and_apply st model resolved setD addD).1, [], some e)) := by
  rcases hu : upsert_and_apply st model resolved setD addD with ⟨st1, res⟩
  rw [hu] at herr
  simp only at herr
  subst herr
  constructor
  · intro hc
    have hp : process_spec st model spec = (st1, [.warnUpsert e], none) := by
      simp [process_spec, hdir, hres, hu, hc]
    rcases hrr : run_specs st1 model rest with ⟨st2, log2, e2⟩
    simp [run_specs, hp, hrr]
  · intro hc
    have hp : process_spec st model spec = (st1, [], some e) := by
      simp [process_spec, hdir, hres, hu, hc]
    simp [run_specs, hp]

/-- Witness for C8's amended claim: the `AttributeError` branch at the
concrete bad-field document. -/
theorem C8_amended_witness :
    resolve_directives st0 specBadSetField =
      .ok (some (JVal.obj [("nonfield", JVal.arr [JVal.num 1])]), none,
        [("name", JVal.str "a")]) ∧
    resolveFields st0 [("name", JVal.str "a")] = .ok [("name", JVal.str "a")] ∧
    (upsert_and_apply st0 "app.person" [("name", JVal.str "a")]
        (some (JVal.obj [("nonfield", JVal.arr [JVal.num 1])])) none).2 =
      .error .attributeError ∧
    caughtUpsert .attributeError = false ∧
    run_specs st0 "app.person" [specBadSetField] =
      ((upsert_and_apply st0 "app.person" [("name", JVal.str "a")]
          (some (JVal.obj [("nonfield", JVal.arr [JVal.num 1])])) none).1,
        [], some .attributeError) := by
  refine ⟨rfl, rfl, rfl, rfl, ?_⟩
  exact (C8_amended_directive_application_error_policy st0 "app.person" specBadSetField
    [] (some (JVal.obj [("nonfield", JVal.arr [JVal.num 1])])) none
    [("name", JVal.str "a")] [("name", JVal.str "a")] .attributeError
    rfl rfl rfl).2 rfl

/-- A one-spec document that succeeds on its own. -/
def docGood : Document := [("app.person", [[("name", JVal.str "alice")]])]

/-- Document `docGood` followed by a record-type that is not registered, whose
`apps.get_model` raises an unhandled `LookupError`. -/
def docFatal : Document := docGood ++ [("app.unknown", [[]])]

/-- C1 counterexample: there is no non-atomic mode. The first document
alone persists one record with no error; appending a group whose model
name is unknown makes the run abort — the exception surfaces to the
caller, but the record persisted by the successfully processed first
spec is rolled back (the final store is the initial empty store),
contradicting the claim that prior persisted records survive. -/
theorem C1_counterexample :
    (run st0 docGood).2.2 = none ∧
    (run st0 docGood).1.records.length = 1 ∧
    run st0 docFatal = (st0, [.info 0 true, .err .lookupError], some .lookupError) ∧
    st0.records.length = 0 :=
  ⟨rfl, rfl, rfl, rfl⟩

/-- Composing document processing: a successfully processed prefix
threads its storage and log into the rest. -/
theorem runIntendedState_append_ok (docB : Document) :
    ∀ (docA : Document) (st stMid : Storage) (logA : List LogEntry),
      runIntendedState st docA = (stMid, logA, none) →
      runIntendedState st (docA ++ docB) =
        ((runIntendedState stMid docB).1,
          logA ++ (runIntendedState stMid docB).2.1,
          (runIntendedState stMid docB).2.2)
  | [], st, stMid, logA, h => by
    rw [runIntendedState] at h
    cases h
    simp
  | (m, specs) :: restA, st, stMid, logA, h => by
    rw [runIntendedState] at h
    cases hm : modelRels st.models m with
    | none => rw [hm] at h; cases h
    | some rels =>
      rw [hm] at h
      rcases hrs : run_specs st m specs with ⟨stx, logx, ex⟩
      rw [hrs] at h
      cases ex with
      | some e => simp at h
      | none =>
        rcases hri : runIntendedState stx restA with ⟨st2, log2, e2⟩
        have h' : (match runIntendedState stx restA with
          | (st2, log2, e?) => (st2, logx ++ log2, e?)) = (stMid, logA, none) := h
        rw [hri] at h'
        simp only [Prod.mk.injEq] at h'
        obtain ⟨rfl, rfl, rfl⟩ := h'
        have IH := runIntendedState_append_ok docB restA stx st2 log2 hri
        rw [List.cons_append]
        simp [runIntendedState, hm, hrs, IH, List.append_assoc]

/-- C1 amended: the job has no non-atomic mode — `run` always wraps the
whole document in one `transaction.atomic()` scope. When a later part
of the document fails with an unhandled exception, the records
persisted by the successfully processed earlier specs are rolled back
(the final store is the initial store), while the warnings/info logged
so far are kept, the error is logged, and the exception surfaces to the
caller. -/
theorem C1_amended_always_atomic (st stMid : Storage) (docA docB : Document)
    (logA : List LogEntry) (e : Exc)
    (hA : runIntendedState st docA = (stMid, logA, none))
    (hB : (runIntendedState stMid docB).2.2 = some e) :
    run st (docA ++ docB) =
      (st, (logA ++ (runIntendedState stMid docB).2.1) ++ [.err e], some e) := by
  have happ := runIntendedState_append_ok docB docA st stMid logA hA
  rw [hB] at happ
  simp [run, happ]

/-- Witness for C1's amended claim at the concrete rollback scenario. -/
theorem C1_amended_witness :
    runIntendedState st0 docGood =
      ((runIntendedState st0 docGood).1, [.info 0 true], none) ∧
    (runIntendedState (runIntendedState st0 docGood).1 [("app.unknown", [[]])]).2.2 =
      some .lookupError ∧
    run st0 (docGood ++ [("app.unknown", [[]])]) =
      (st0,
        ([.info 0 true] ++
          (runIntendedState (runIntendedState st0 docGood).1 [("app.unknown", [[]])]).2.1) ++
          [.err .lookupError],
        some .lookupError) := by
  refine ⟨rfl, rfl, ?_⟩
  exact C1_amended_always_atomic st0 (runIntendedState st0 docGood).1 docGood
    [("app.unknown", [[]])] [.info 0 true] .lookupError rfl rfl

/-- When the directive key is neither at top level nor inside an
object-valued `defaults`, extraction leaves the spec untouched. -/
theorem extract_pop_none_helper (key : String) (spec : Spec)
    (htop : pyDictGet spec key = none)
    (hdfl : ∀ dfl, pyDictGet spec "defaults" = some (.obj dfl) → pyDictGet dfl key = none) :
    extract_pop key spec = (none, spec) := by
  rw [extract_pop, htop]
  cases hd : pyDictGet spec "defaults" with
  | none => rfl
  | some v =>
    cases v with
    | obj dfl => simp [hdfl dfl hd]
    | null => rfl
    | bool b => rfl
    | num n => rfl
    | str s => rfl
    | arr es => rfl
    | record i => rfl

/-- With no directives to extract, the directive phase succeeds
trivially. -/
theorem resolve_directives_nodir (st : Storage) (spec : Spec)
    (hset : extract_pop "#set" spec = (none, spec))
    (hadd : extract_pop "#add" spec = (none, spec)) :
    resolve_directives st spec = .ok (none, none, spec) := by
  simp [resolve_directives, hset, hadd]

/-- The record a no-match upsert creates: the next free id, fields the
predicate plus the `defaults` entries for fields the predicate leaves
unspecified, relationship table the registry's relationship fields,
each starting empty. -/
def createdRecord (st : Storage) (model : String) (spec : Spec) (dfl : Spec) : Record :=
  ⟨st.nextId, model,
    removeKey spec "defaults" ++
      dfl.filter (fun p => (pyDictGet (removeKey spec "defaults") p.1).isNone),
    ((modelRels st.models model).getD []).map (fun f => (f, ([] : List JVal)))⟩

/-- The storage a no-match upsert leaves behind. -/
def createdStorage (st : Storage) (model : String) (spec : Spec) (dfl : Spec) : Storage :=
  { st with
    records := st.records ++ [createdRecord st model spec dfl],
    nextId := st.nextId + 1 }

theorem createdRecord_id (st : Storage) (model : String) (spec : Spec) (dfl : Spec) :
    (createdRecord st model spec dfl).id = st.nextId := rfl

/-- Behaviour of `update_or_create` when no stored record matches the
predicate: create `createdRecord` and report `created = true`. -/
theorem update_or_create_no_match (st : Storage) (model : String) (spec : Spec) (dfl : Spec)
    (hd : pyDictGet spec "defaults" = none ∧ dfl = [] ∨
      pyDictGet spec "defaults" = some (.obj dfl))
    (hfil : st.records.filter
      (fun r => matchesPred r model (removeKey spec "defaults")) = []) :
    update_or_create st model spec =
      (createdStorage st model spec dfl, .ok (st.nextId, true)) := by
  rcases hd with ⟨hd, rfl⟩ | hd <;>
    simp [update_or_create, hd, hfil, createdStorage, createdRecord]

/-- Behaviour of `update_or_create` when exactly one stored record matches the
predicate: write the `defaults` fields through onto it and report
`created = false`. -/
theorem update_or_create_one_match (st : Storage) (model : String) (spec : Spec)
    (dfl : Spec) (r : Record)
    (hd : pyDictGet spec "defaults" = none ∧ dfl = [] ∨
      pyDictGet spec "defaults" = some (.obj dfl))
    (hfil : st.records.filter
      (fun r => matchesPred r model (removeKey spec "defaults")) = [r]) :
    update_or_create st model spec =
      (replaceRecord st
        { r with fields := dfl.foldl (fun fs p => assocUpdate fs p.1 p.2) r.fields },
        .ok (r.id, false)) := by
  rcases hd with ⟨hd, rfl⟩ | hd <;> simp [update_or_create, hd, hfil]

theorem replaceRecord_length (st : Storage) (r' : Record) :
    (replaceRecord st r').records.length = st.records.length := by
  simp [replaceRecord]

theorem removeKey_keys_nodup (spec : Spec) (k : String)
    (h : (spec.map Prod.fst).Nodup) : ((removeKey spec k).map Prod.fst).Nodup :=
  h.sublist (List.Sublist.map Prod.fst (List.filter_sublist spec))

/-- A record whose fields begin with the predicate matches it. -/
theorem matchesPred_self (objId : Nat) (model : String) (pred extra : Spec)
    (rels : List (String × List JVal))
    (hnd : (pred.map Prod.fst).Nodup) :
    matchesPred ⟨objId, model, pred ++ extra, rels⟩ model pred = true := by
  rw [matchesPred, Bool.and_eq_true]
  refine ⟨by simp, ?_⟩
  rw [List.all_eq_true]
  intro p hp
  have h1 : pyDictGet pred p.1 = some p.2 := by
    obtain ⟨k, v⟩ := p
    exact pyDictGet_of_mem_nodup k v pred hnd hp
  have h2 := pyDictGet_append_left p.1 p.2 pred extra h1
  show (Record.getField _ p.1 == some p.2) = true
  rw [Record.getField]
  show (pyDictGet (pred ++ extra) p.1 == some p.2) = true
  rw [h2]
  simp

/-- Run a one-spec document end to end, given what its upsert does:
with no directives and a marker-free spec, the run succeeds, emits the
per-record outcome line, and leaves exactly the upsert's storage. -/
theorem run_one_spec (st : Storage) (model : String) (spec : Spec)
    (hreg : (modelRels st.models model).isSome = true)
    (hnoref : jfieldsNoRef spec = true)
    (hdirset : extract_pop "#set" spec = (none, spec))
    (hdiradd : extract_pop "#add" spec = (none, spec))
    (st1 : Storage) (objId : Nat) (created : Bool)
    (huoc : update_or_create st model spec = (st1, .ok (objId, created))) :
    run st [(model, [spec])] = (st1, [.info objId created], none) := by
  obtain ⟨rels, hr⟩ := Option.isSome_iff_exists.mp hreg
  have hdir := resolve_directives_nodir st spec hdirset hdiradd
  have hres := resolveFields_noRef st spec hnoref
  have hup : upsert_and_apply st model spec none none = (st1, .ok (objId, created)) := by
    simp [upsert_and_apply, huoc, apply_directives, pyTruthyOpt]
  have hp : process_spec st model spec = (st1, [.info objId created], none) := by
    simp [process_spec, hdir, hres, hup]
  have hrs : run_specs st model [spec] = (st1, [.info objId created], none) := by
    simp [run_specs, hp]
  have hri : runIntendedState st [(model, [spec])] = (st1, [.info objId created], none) := by
    simp [runIntendedState, hr, hrs]
  simp [run, hri]

/-- C4: reconcile is idempotent on a record spec with no reference
markers and no directives: starting from a store with no record
matching the spec's predicate, the first run creates the record under
the next free identity and reports `created = true`; running the very
same document again reports `created = false` for that same identity
and adds no record. -/
theorem C4_reconcile_idempotent (st : Storage) (model : String) (spec : Spec)
    (hreg : (modelRels st.models model).isSome = true)
    (hnoref : jfieldsNoRef spec = true)
    (hsetTop : pyDictGet spec "#set" = none)
    (haddTop : pyDictGet spec "#add" = none)
    (hdfldir : ∀ dfl, pyDictGet spec "defaults" = some (.obj dfl) →
      pyDictGet dfl "#set" = none ∧ pyDictGet dfl "#add" = none)
    (hdflobj : ∀ v, pyDictGet spec "defaults" = some v → ∃ dfl, v = .obj dfl)
    (hnodup : (spec.map Prod.fst).Nodup)
    (hnomatch : ∀ r ∈ st.records,
      matchesPred r model (removeKey spec "defaults") = false) :
    ∃ st1 st2,
      run st [(model, [spec])] = (st1, [.info st.nextId true], none) ∧
      run st1 [(model, [spec])] = (st2, [.info st.nextId false], none) ∧
      st1.records.length = st.records.length + 1 ∧
      st2.records.length = st1.records.length := by
  obtain ⟨dfl, hd⟩ : ∃ dfl : Spec,
      pyDictGet spec "defaults" = none ∧ dfl = [] ∨
        pyDictGet spec "defaults" = some (.obj dfl) := by
    cases hdef : pyDictGet spec "defaults" with
    | none => exact ⟨[], Or.inl ⟨rfl, rfl⟩⟩
    | some v =>
      obtain ⟨dfl, rfl⟩ := hdflobj v hdef
      exact ⟨dfl, Or.inr rfl⟩
  have hdirset : extract_pop "#set" spec = (none, spec) :=
    extract_pop_none_helper "#set" spec hsetTop (fun d hdd => (hdfldir d hdd).1)
  have hdiradd : extract_pop "#add" spec = (none, spec) :=
    extract_pop_none_helper "#add" spec haddTop (fun d hdd => (hdfldir d hdd).2)
  have hprednd : ((removeKey spec "defaults").map Prod.fst).Nodup :=
    removeKey_keys_nodup spec "defaults" hnodup
  have hfil1 : st.records.filter
      (fun r => matchesPred r model (removeKey spec "defaults")) = [] :=
    List.filter_eq_nil_iff.mpr (fun r hr => by simp [hnomatch r hr])
  have huoc1 := update_or_create_no_match st model spec dfl hd hfil1
  have hrun1 := run_one_spec st model spec hreg hnoref hdirset hdiradd _ st.nextId true huoc1
  have hfil2 :
      (createdStorage st model spec dfl).records.filter
        (fun r => matchesPred r model (removeKey spec "defaults")) =
      [createdRecord st model spec dfl] := by
    show (st.records ++ [createdRecord st model spec dfl]).filter _ = _
    rw [List.filter_append, hfil1]
    have hm : matchesPred (createdRecord st model spec dfl) model
        (removeKey spec "defaults") = true :=
      matchesPred_self st.nextId model (removeKey spec "defaults") _ _ hprednd
    simp [hm]
  have huoc2 := update_or_create_one_match _ model spec dfl _ hd hfil2
  rw [createdRecord_id] at huoc2
  have hrun2 := run_one_spec (createdStorage st model spec dfl) model spec hreg
    hnoref hdirset hdiradd _ st.nextId false huoc2
  refine ⟨_, _, hrun1, hrun2, ?_, ?_⟩
  · simp [createdStorage]
  · rw [replaceRecord_length]

/-- A marker-free, directive-free spec with a `defaults` sub-mapping. -/
def specC4 : Spec :=
  [("name", JVal.str "bob"), ("defaults", JVal.obj [("age", JVal.num 30)])]

/-- Witness for C4 on the empty store: first run creates record 0,
second run updates it, and no duplicate appears. -/
theorem C4_witness :
    jfieldsNoRef specC4 = true ∧
    (∃ st1 st2,
      run st0 [("app.person", [specC4])] = (st1, [.info 0 true], none) ∧
      run st1 [("app.person", [specC4])] = (st2, [.info 0 false], none) ∧
      st1.records.length = st0.records.length + 1 ∧
      st2.records.length = st1.records.length) := by
  refine ⟨rfl, ?_⟩
  exact C4_reconcile_idempotent st0 "app.person" specC4 rfl rfl rfl rfl
    (fun dfl h => by
      have h' : some (JVal.obj [("age", JVal.num 30)]) = some (JVal.obj dfl) := h
      cases h'
      exact ⟨rfl, rfl⟩)
    (fun v h => by
      have h' : some (JVal.obj [("age", JVal.num 30)]) = some v := h
      cases h'
      exact ⟨[("age", JVal.num 30)], rfl⟩)
    (by decide)
    (fun r hr => absurd hr (List.not_mem_nil r))

end IntendedStateJob
